import Mathlib

/-!
Shallow embedding of the Structured Agent Orchestration Loop of
`agentq` (files `agentq/core/agent/base.py` and
`agentq/core/agent/vision_agent.py`), together with theorems settling
the specification claims about it.

Conventions of the embedding:
* Python dictionaries parsed from JSON are association lists
  `List (String × JsonValue)`.
* A model transport call is an oracle parameter: the raw text the model
  returned, already classified as "parses as a JSON object" or "not
  parseable as JSON" (the transports are invoked with
  `response_format = json_object`, so a JSON object is the only shape a
  successful parse can take in this system).
* Python exceptions are `Except` errors; distinct raise causes get
  distinct constructors even when Python gives them the same dynamic
  type (the loop re-raises `ValueError` both for a JSON parse failure
  and for a pydantic validation failure; the constructors record which
  of the two happened).
* pydantic model construction `output_format(**json_response)` is
  modelled per the output-schema contract of the spec (the concrete
  model classes live in `agentq/core/models/models.py`): every declared
  field must be present and type-valid, a present `null` is valid
  exactly for a field whose declared type admits `None`
  (`Optional[...]`), and extra keys are ignored.
-/

namespace AgentQ

/-- Message roles of the conversation log kept in `self.messages`. -/
inductive Role
  | system
  | user
  | assistant
  | tool
  deriving DecidableEq, Repr

/-- One entry of `self.messages` (a Python dict with keys `role`,
`content`, and for tool messages `tool_call_id` and `name`). -/
structure Message where
  role : Role
  content : String
  toolCallId : Option String := none
  toolName : Option String := none
  deriving DecidableEq, Repr

/-- A JSON value, as produced by `json.loads`. -/
inductive JsonValue
  | null
  | str (s : String)
  | num (n : Int)
  | boolean (b : Bool)
  | obj (fields : List (String × JsonValue))
  | arr (elems : List JsonValue)

/-- Python truthiness of a parsed JSON value (`if visual_analysis:`). -/
def pyTruthy : JsonValue → Bool
  | .null => false
  | .str s => s ≠ ""
  | .num n => n ≠ 0
  | .boolean b => b
  | .obj fs => ¬ fs.isEmpty
  | .arr es => ¬ es.isEmpty

/-- Python `str()` of a parsed JSON value, as interpolated into
f-strings. Rendering details of the composite cases are irrelevant to
every claim; only the scalar cases ever reach a message. -/
def pyStr : JsonValue → String
  | .null => "None"
  | .str s => s
  | .num n => toString n
  | .boolean b => if b then "True" else "False"
  | .obj _ => "<dict>"
  | .arr _ => "<list>"

/-- The raw text returned by a model transport call, classified by
whether `json.loads` succeeds on it. Under
`response_format = json_object` a successful parse yields an object. -/
inductive RawResponse
  | invalid (text : String)
  | object (fields : List (String × JsonValue))

/-- The source text a `RawResponse` stands for (used where the code
keeps the raw text for diagnostics). A simple deterministic rendering
of the object case; no claim depends on its exact shape. -/
def renderFieldNames : List (String × JsonValue) → String
  | [] => ""
  | (k, _) :: rest => k ++ ";" ++ renderFieldNames rest

def RawResponse.text : RawResponse → String
  | .invalid t => t
  | .object fs => "json-object:" ++ renderFieldNames fs

/-- Python exceptions that the embedded code can raise. -/
inductive PyError
  | keyError (key : String)
  | unboundLocalError (name : String)
  | jsonDecodeError
  | typeErrorUnexpectedKwarg (name : String)
  | transportFailure (detail : String)
  deriving DecidableEq, Repr

/-- One declared field of a pydantic output model
(`self.output_format.model_fields`): its name, whether its declared
type admits `None` — in Python, whether the `__args__` of the
declared type contains `NoneType`, which is what the repair loop
tests — and the type-validity predicate for present non-null values. -/
structure FieldInfo where
  name : String
  admitsNone : Bool
  checkVal : JsonValue → Bool

/-- Whether a present value is accepted by pydantic for the field: a
`null` is accepted exactly when the declared type admits `None`,
any other value per the field type. -/
def validValue (f : FieldInfo) : JsonValue → Bool
  | .null => f.admitsNone
  | v => f.checkVal v

/-- The field-repair loop of `BaseAgent.run` (base.py lines 221-230):
for each declared output field missing from the parsed JSON, if its
declared type admits `None` the value `None` is injected; a missing
required field is only logged and left absent. -/
def repairFields (fields : List FieldInfo) (json : List (String × JsonValue)) :
    List (String × JsonValue) :=
  match fields with
  | [] => json
  | f :: rest =>
    let acc :=
      if (json.lookup f.name).isSome then json
      else if f.admitsNone then json ++ [(f.name, JsonValue.null)]
      else json
    repairFields rest acc

/-- pydantic construction `self.output_format(**json_response)`:
succeeds iff every declared field is present with a valid value;
otherwise fails with the list of offending field names (pydantic
`ValidationError`, a subclass of `ValueError`). Extra keys are
ignored. -/
def constructModel (fields : List FieldInfo) (json : List (String × JsonValue)) :
    Except (List String) (List (String × JsonValue)) :=
  let faults := fields.filterMap
    (fun f =>
      match json.lookup f.name with
      | none => some f.name
      | some v => if validValue f v then none else some f.name)
  if faults.isEmpty then
    .ok (fields.filterMap (fun f => (json.lookup f.name).map (fun v => (f.name, v))))
  else
    .error faults

/- JSON rendering of a parsed value, standing for the serialization
used by `model_dump_json` (the exact text is never load-bearing for a
claim; what matters is which fields the serialized object contains). -/
mutual

def renderJson : JsonValue → String
  | .null => "null"
  | .str s => "\"" ++ s ++ "\""
  | .num n => toString n
  | .boolean b => if b then "true" else "false"
  | .obj fs => "\x7b" ++ renderPairs fs ++ "\x7d"
  | .arr es => "[" ++ renderElems es ++ "]"

def renderPairs : List (String × JsonValue) → String
  | [] => ""
  | [(k, v)] => "\"" ++ k ++ "\": " ++ renderJson v
  | (k, v) :: rest => "\"" ++ k ++ "\": " ++ renderJson v ++ ", " ++ renderPairs rest

def renderElems : List JsonValue → String
  | [] => ""
  | [v] => renderJson v
  | v :: rest => renderJson v ++ ", " ++ renderElems rest

end

/-- A structured input value (an instance of the agent's
`input_format` pydantic model): its fields as produced by
`model_dump`. A pydantic attribute exists exactly when the field is
declared, so `hasattr` checks become key membership here. -/
structure InputEnvelope where
  fields : List (String × JsonValue)

/-- The page-state keys excluded from the primary serialized message:
`model_dump_json(exclude={"current_page_dom", "current_page_url"})`. -/
def pageStateKeys : List String := ["current_page_dom", "current_page_url"]

/-- `input_data.model_dump_json(exclude={"current_page_dom", "current_page_url"})`. -/
def primaryFields (input : InputEnvelope) : List (String × JsonValue) :=
  input.fields.filter (fun kv => !(pageStateKeys.contains kv.1))

def primaryContent (input : InputEnvelope) : String :=
  "\x7b" ++ renderPairs (primaryFields input) ++ "\x7d"

/-- `hasattr(input_data, "current_page_dom") and hasattr(input_data, "current_page_url")`. -/
def hasPageState (input : InputEnvelope) : Bool :=
  (input.fields.lookup "current_page_dom").isSome &&
    (input.fields.lookup "current_page_url").isSome

/-- The separate page-state message content (base.py line 162). -/
def pageStateContent (input : InputEnvelope) : String :=
  "Current page URL:\n" ++ pyStr ((input.fields.lookup "current_page_url").getD .null) ++
    "\n\n Current page DOM:\n" ++ pyStr ((input.fields.lookup "current_page_dom").getD .null)

/-- The vision-enriched user message content (base.py lines 140-144). -/
def enhancedContent (visualAnalysis : JsonValue) (input : InputEnvelope) : String :=
  "\nVISUAL ANALYSIS: " ++ pyStr visualAnalysis ++ "\n\nUSER INPUT: " ++
    primaryContent input ++ "\n"

/-- Stands for pydantic `model_json_schema()` applied to the output
format: a deterministic rendering of the declared fields. Its exact
text is irrelevant to the claims; that it is a fixed function of the
schema is what matters. -/
def schemaText (fields : List FieldInfo) : String :=
  "\x7b" ++ String.intercalate ", "
    (fields.map (fun f => f.name ++ (if f.admitsNone then ": optional" else ": required"))) ++
    "\x7d"

/-- The output-schema instruction appended to the system message on
every call (base.py lines 166-167). -/
def jsonInstruction (fields : List FieldInfo) : String :=
  "\n\nYou must respond with valid JSON that matches this exact schema: " ++
    schemaText fields ++
    "\n\nImportant: Optional fields (marked with anyOf containing null) can either be omitted from your response or set to null. Required fields must always be included."

/-- Per-agent configuration fixed at construction (`BaseAgent.__init__`). -/
structure AgentConfig where
  systemPrompt : String
  keepMessageHistory : Bool
  outputFields : List FieldInfo
  toolNames : List String
  checkInput : InputEnvelope → Bool

/-- `BaseAgent._initialize_messages`: the log is replaced by the single
system message. -/
def initMessages (cfg : AgentConfig) : List Message :=
  [{ role := .system, content := cfg.systemPrompt }]

def userMsg (content : String) : Message :=
  { role := .user, content := content }

/-- `self.messages[0]["content"] += json_instruction` (base.py line
167): mutates the head of the log in place. The empty case cannot
arise when a system prompt is configured (Python would raise
IndexError there). -/
def augmentHead (msgs : List Message) (instr : String) : List Message :=
  match msgs with
  | [] => []
  | m :: rest => { m with content := m.content ++ instr } :: rest

/-- The fixed fallback returned when vision analysis fails
(base.py line 287). -/
def visionFallback : String :=
  "Vision analysis unavailable - proceeding with DOM-only analysis"

/-- `BaseAgent._analyze_screenshot_with_vision`: the whole body is one
`try` block, so a missing `objective` attribute (prompt construction),
a transport failure, or a JSON parse failure all reach the `except`
and return the fixed fallback string. On success it returns
`parsed.get("visual_analysis", "No visual analysis available")`, which
is whatever value the key holds. -/
def analyzeScreenshotWithVision (input : InputEnvelope)
    (visionTransport : Except PyError RawResponse) : JsonValue :=
  match input.fields.lookup "objective" with
  | none => .str visionFallback
  | some _ =>
    match visionTransport with
    | .error _ => .str visionFallback
    | .ok (.invalid _) => .str visionFallback
    | .ok (.object fs) =>
      match fs.lookup "visual_analysis" with
      | some v => v
      | none => .str "No visual analysis available"

/-- The errors `BaseAgent.run` can surface to its caller. In Python,
`malformedResponse` and `schemaViolation` are both re-raised as
`ValueError("Failed to parse LLM response as valid JSON: ...")`;
the constructors record the distinct cause (`json.JSONDecodeError`
from `json.loads` vs pydantic `ValidationError` from construction). -/
inductive RunError
  | inputTypeError
  | uncaught (e : PyError)
  | malformedResponse (raw : String)
  | schemaViolation (fieldFaults : List String) (raw : String)

/-- The observable outcome of one `run` invocation: the returned or
raised value, the conversation log as `self.messages` holds it
afterwards, and instrumentation counters for the claims about resource
use (text-model transport calls made, tool dispatches performed). -/
structure RunOutput where
  result : Except RunError (List (String × JsonValue))
  messages : List Message
  textModelCalls : Nat
  toolDispatches : Nat

/-- The body of the `while True` loop of `BaseAgent.run` (base.py
lines 172-240), given the transport outcome of the one completion
call it makes: every control path either returns a parsed output
envelope or raises, so the body is a total function into `Except` —
there is no branch that falls through to another iteration. The
transport call itself has no surrounding `try`, so a transport
exception propagates (`uncaught`). -/
def loopBody (outputFields : List FieldInfo)
    (textTransport : Except PyError RawResponse) :
    Except RunError (List (String × JsonValue)) :=
  match textTransport with
  | .error e => .error (.uncaught e)
  | .ok (.invalid text) => .error (.malformedResponse text)
  | .ok (.object fs) =>
    match constructModel outputFields (repairFields outputFields fs) with
    | .ok env => .ok env
    | .error faults => .error (.schemaViolation faults (RawResponse.text (.object fs)))

/-- The conversation log as it stands at the moment the loop's
completion call is issued (base.py lines 122-167): optional history
reset, the primary (possibly vision-enriched) user message, the
optional separate page-state message, and the in-place augmentation of
the system message with the schema instruction. -/
def preCallMessages (cfg : AgentConfig) (messages : List Message)
    (input : InputEnvelope) (screenshot : Option String)
    (visionTransport : Except PyError RawResponse) : List Message :=
  let msgs0 := if cfg.keepMessageHistory then messages else initMessages cfg
  let visual : Option JsonValue :=
    match screenshot with
    | some _ => some (analyzeScreenshotWithVision input visionTransport)
    | none => none
  let msgs1 :=
    match visual with
    | some v =>
      if pyTruthy v then msgs0 ++ [userMsg (enhancedContent v input)]
      else msgs0 ++ [userMsg (primaryContent input)]
    | none => msgs0 ++ [userMsg (primaryContent input)]
  let msgs2 :=
    if hasPageState input then msgs1 ++ [userMsg (pageStateContent input)]
    else msgs1
  augmentHead msgs2 (jsonInstruction cfg.outputFields)

/-- `BaseAgent.run` (base.py lines 86-240). Oracle parameters stand
for the two transports: `visionTransport` is consumed only when a
screenshot is supplied; `textTransport` is the completion call of the
loop body (`len(self.tools_list) == 0` or not, both branches issue the
identical plain completion call, so the tool registry does not change
the behavior). `_append_tool_response` is never invoked from `run`,
hence `toolDispatches = 0` on every path. -/
def run (cfg : AgentConfig) (messages : List Message) (input : InputEnvelope)
    (screenshot : Option String)
    (visionTransport : Except PyError RawResponse)
    (textTransport : Except PyError RawResponse) : RunOutput :=
  if cfg.checkInput input = false then
    { result := .error .inputTypeError, messages := messages,
      textModelCalls := 0, toolDispatches := 0 }
  else
    let msgs3 := preCallMessages cfg messages input screenshot visionTransport
    { result := loopBody cfg.outputFields textTransport,
      messages := msgs3, textModelCalls := 1, toolDispatches := 0 }

/-- A model-requested tool call, with `function.arguments` already
classified by whether `json.loads` succeeds on it. -/
structure ToolCall where
  id : String
  name : String
  argumentsRaw : RawResponse

/-- A registered tool callable: keyword arguments in, either a value
(stringified into the tool message) or a raised exception out. -/
def ToolFn : Type :=
  List (String × JsonValue) → Except String JsonValue

/-- `BaseAgent._append_tool_response` (base.py lines 289-316). The
registry lookup (line 291) and the `json.loads` of the arguments
(line 292) sit before the `try` block, so their failures propagate.
Inside the `except` block, the message content is built as
`str("The tool responded with an error, ...", function_response)`;
on that path `function_response` was never assigned, so evaluating it
raises `UnboundLocalError` before any message is appended. -/
def appendToolResponse (executableFunctions : List (String × ToolFn))
    (messages : List Message) (tc : ToolCall) :
    Except PyError (List Message) :=
  match executableFunctions.lookup tc.name with
  | none => .error (.keyError tc.name)
  | some f =>
    match tc.argumentsRaw with
    | .invalid _ => .error .jsonDecodeError
    | .object args =>
      match f args with
      | .ok functionResponse =>
        .ok (messages ++
          [{ role := .tool, content := pyStr functionResponse,
             toolCallId := some tc.id, toolName := some tc.name }])
      | .error _ => .error (.unboundLocalError "function_response")

/-- The keyword parameters `BaseAgent.run` accepts besides `self`. -/
def baseRunParamNames : List String := ["input_data", "screenshot", "session_id"]

/-- The keyword arguments `VisionAgent.run` forwards to
`super().run(...)` (vision_agent.py lines 35-40). -/
def visionRunForwardedKwargs : List String :=
  ["input_data", "screenshot", "session_id", "model"]

/-- Python call binding for keyword arguments: an argument name not
among the callee's parameters raises `TypeError` before the callee
body runs. -/
def bindKwargs (accepted passed : List String) : Except PyError Unit :=
  match passed.find? (fun k => !(accepted.contains k)) with
  | some k => .error (.typeErrorUnexpectedKwarg k)
  | none => .ok ()

/-- `VisionAgent.run`: reads the vision model name, then calls
`super().run` with an extra `model=` keyword argument. The binding of
that call is checked before `BaseAgent.run`'s body executes, so a
binding failure yields zero transport calls. -/
def visionAgentRun (cfg : AgentConfig) (messages : List Message)
    (input : InputEnvelope) (screenshot : Option String)
    (visionTransport textTransport : Except PyError RawResponse) : RunOutput :=
  match bindKwargs baseRunParamNames visionRunForwardedKwargs with
  | .error e =>
    { result := .error (.uncaught e), messages := messages,
      textModelCalls := 0, toolDispatches := 0 }
  | .ok _ => run cfg messages input screenshot visionTransport textTransport

/-- Number of messages of a given role in a log. -/
def roleCount (r : Role) (msgs : List Message) : Nat :=
  (msgs.filter (fun m => m.role == r)).length

/-- Content of the stored system message (`self.messages[0]`). -/
def headContentOf (msgs : List Message) : String :=
  match msgs with
  | [] => ""
  | m :: _ => m.content

/-- Number of (possibly overlapping) occurrences of `pat` in `hay`. -/
def countOccurChars (hay pat : List Char) : Nat :=
  match hay with
  | [] => 0
  | _ :: rest => (if pat.isPrefixOf hay then 1 else 0) + countOccurChars rest pat

/-- Number of occurrences of the string `pat` inside `s`. -/
def occurrencesIn (pat s : String) : Nat :=
  countOccurChars s.data pat.data

/-! Concrete instances used to exercise the embedding on closed
inputs (witnesses and counterexamples). -/

/-- A required output field: its declared type has no `None` variant. -/
def planField : FieldInfo :=
  { name := "plan", admitsNone := false, checkVal := fun _ => true }

/-- An optional output field: `Optional[...]`, so `None` is admitted. -/
def finalResponseField : FieldInfo :=
  { name := "final_response", admitsNone := true, checkVal := fun _ => true }

/-- A planner-like agent: retained history, two-field output schema. -/
def cfgPlanner : AgentConfig :=
  { systemPrompt := "You are a web automation planner."
    keepMessageHistory := true
    outputFields := [planField, finalResponseField]
    toolNames := []
    checkInput := fun _ => true }

/-- A minimal agent used for the retained-history duplication check. -/
def cfgTiny : AgentConfig :=
  { systemPrompt := "S"
    keepMessageHistory := true
    outputFields := []
    toolNames := []
    checkInput := fun _ => true }

def sampleInput : InputEnvelope :=
  { fields := [("objective", JsonValue.str "open example.com")] }

def pageInput : InputEnvelope :=
  { fields := [("objective", JsonValue.str "open example.com"),
               ("current_page_dom", JsonValue.str "dom-snapshot"),
               ("current_page_url", JsonValue.str "https://example.com")] }

/-- A transport outcome: the connection failed. -/
def errTransport : Except PyError RawResponse :=
  .error (.transportFailure "connection reset")

/-- A transport outcome: the model answered with non-JSON text. -/
def malformedTransport : Except PyError RawResponse :=
  .ok (.invalid "I will now plan the task:")

/-- A transport outcome: a schema-conforming JSON object. -/
def okTransport : Except PyError RawResponse :=
  .ok (.object [("plan", JsonValue.str "step 1"), ("final_response", JsonValue.null)])

def tinyInput : InputEnvelope :=
  { fields := [("objective", JsonValue.str "go")] }

/-- A transport outcome for the empty output schema: `{}`. -/
def emptyOkTransport : Except PyError RawResponse :=
  .ok (.object [])

/-- A registered callable that returns normally. -/
def okTool : ToolFn := fun _ => .ok (.str "https://example.com")

/-- A registered callable that raises. -/
def failingTool : ToolFn := fun _ => .error "RuntimeError: browser not started"

/-! Supporting lemmas about association-list lookup, the repair loop,
and pydantic construction. -/

theorem lookup_append_left {l₁ l₂ : List (String × JsonValue)} {k : String}
    {v : JsonValue} (h : l₁.lookup k = some v) : (l₁ ++ l₂).lookup k = some v := by
  induction l₁ with
  | nil => exact Option.noConfusion h
  | cons kv rest ih =>
    cases kv with
    | mk k2 v2 =>
      rw [List.cons_append]
      by_cases hk : k = k2
      · subst hk
        simp only [List.lookup_cons, beq_self_eq_true] at h ⊢
        exact h
      · simp only [List.lookup_cons, beq_false_of_ne hk] at h ⊢
        exact ih h

theorem lookup_append_right {l₁ l₂ : List (String × JsonValue)} {k : String}
    (h : l₁.lookup k = none) : (l₁ ++ l₂).lookup k = l₂.lookup k := by
  induction l₁ with
  | nil => rfl
  | cons kv rest ih =>
    cases kv with
    | mk k2 v2 =>
      rw [List.cons_append]
      by_cases hk : k = k2
      · subst hk
        simp only [List.lookup_cons, beq_self_eq_true] at h
        exact Option.noConfusion h
      · simp only [List.lookup_cons, beq_false_of_ne hk] at h ⊢
        exact ih h

/-- Repair never overwrites a field that the parsed JSON already
holds (`if field_name not in json_response` guards the injection). -/
theorem repairFields_lookup_present (fields : List FieldInfo)
    (json : List (String × JsonValue)) (k : String) (v : JsonValue)
    (h : json.lookup k = some v) :
    (repairFields fields json).lookup k = some v := by
  induction fields generalizing json with
  | nil => simpa [repairFields] using h
  | cons f rest ih =>
    rw [repairFields]
    by_cases hs : (json.lookup f.name).isSome
    · simpa [hs] using ih json h
    · simp only [hs, if_false]
      by_cases hopt : f.admitsNone
      · simpa [hopt] using ih _ (lookup_append_left h)
      · simpa [hopt] using ih json h

/-- Repair injects nothing for a key that no declared field carries. -/
theorem repairFields_lookup_absent (fields : List FieldInfo)
    (json : List (String × JsonValue)) (k : String)
    (hnone : json.lookup k = none)
    (hnotin : ∀ f ∈ fields, f.name ≠ k) :
    (repairFields fields json).lookup k = none := by
  induction fields generalizing json with
  | nil => simpa [repairFields] using hnone
  | cons f rest ih =>
    rw [repairFields]
    have hfk : f.name ≠ k := hnotin f (List.mem_cons_self f rest)
    have hrest : ∀ g ∈ rest, g.name ≠ k := fun g hg => hnotin g (List.mem_cons_of_mem f hg)
    by_cases hs : (json.lookup f.name).isSome
    · simpa [hs] using ih json hnone hrest
    · simp only [hs, if_false]
      by_cases hopt : f.admitsNone
      · have hacc : (json ++ [(f.name, JsonValue.null)]).lookup k = none := by
          rw [lookup_append_right hnone]
          simp [List.lookup, beq_false_of_ne (Ne.symm hfk)]
        simpa [hopt] using ih _ hacc hrest
      · simpa [hopt] using ih json hnone hrest

/-- The repair loop of base.py lines 221-230 injects `None` for a
declared field whose type admits `None` and which the parsed JSON
omits. -/
theorem repairFields_injects_null (fields : List FieldInfo)
    (json : List (String × JsonValue)) (f : FieldInfo)
    (hmem : f ∈ fields)
    (hnodup : (fields.map FieldInfo.name).Nodup)
    (hopt : f.admitsNone = true)
    (hnone : json.lookup f.name = none) :
    (repairFields fields json).lookup f.name = some JsonValue.null := by
  induction fields generalizing json with
  | nil => exact absurd hmem (List.not_mem_nil f)
  | cons g rest ih =>
    rw [repairFields]
    rcases List.mem_cons.mp hmem with hgf | hfrest
    · subst hgf
      have hs : (json.lookup f.name).isSome = false := by simp [hnone]
      have hacc : (json ++ [(f.name, JsonValue.null)]).lookup f.name =
          some JsonValue.null := by
        rw [lookup_append_right hnone]
        simp [List.lookup]
      simp only [hs, if_false, hopt, if_true, Bool.false_eq_true]
      exact repairFields_lookup_present rest _ f.name JsonValue.null hacc
    · have hgname : g.name ≠ f.name := by
        intro he
        have h1 : g.name ∉ rest.map FieldInfo.name := (List.nodup_cons.mp hnodup).1
        exact h1 (he ▸ List.mem_map_of_mem FieldInfo.name hfrest)
      have hnd : (rest.map FieldInfo.name).Nodup := (List.nodup_cons.mp hnodup).2
      by_cases hs : (json.lookup g.name).isSome
      · simpa [hs] using ih json hfrest hnd hnone
      · simp only [hs, if_false]
        by_cases hgo : g.admitsNone
        · have hacc : (json ++ [(g.name, JsonValue.null)]).lookup f.name = none := by
            rw [lookup_append_right hnone]
            simp [List.lookup, beq_false_of_ne (Ne.symm hgname)]
          simpa [hgo] using ih _ hfrest hnd hacc
        · simpa [hgo] using ih json hfrest hnd hnone

/-- pydantic construction succeeds when every declared field is
present with a valid value, yielding the envelope of declared
fields. -/
theorem constructModel_ok (fields : List FieldInfo) (json : List (String × JsonValue))
    (h : ∀ f ∈ fields, ∃ v, json.lookup f.name = some v ∧ validValue f v = true) :
    constructModel fields json =
      .ok (fields.filterMap (fun f => (json.lookup f.name).map (fun v => (f.name, v)))) := by
  have hfaults : fields.filterMap
      (fun f =>
        match json.lookup f.name with
        | none => some f.name
        | some v => if validValue f v then none else some f.name) = [] := by
    rw [List.filterMap_eq_nil_iff]
    intro f hf
    obtain ⟨v, hv, hvalid⟩ := h f hf
    simp [hv, hvalid]
  simp [constructModel, hfaults]

/-- In a successful construction over distinct field names, the
envelope's entry for a declared field is the (repaired) JSON value. -/
theorem constructModel_env_lookup (fields : List FieldInfo)
    (json : List (String × JsonValue)) (f : FieldInfo) (v : JsonValue)
    (hmem : f ∈ fields) (hnodup : (fields.map FieldInfo.name).Nodup)
    (hv : json.lookup f.name = some v) :
    (fields.filterMap (fun g => (json.lookup g.name).map (fun w => (g.name, w)))).lookup
      f.name = some v := by
  induction fields with
  | nil => exact absurd hmem (List.not_mem_nil f)
  | cons g rest ih =>
    rcases List.mem_cons.mp hmem with hgf | hfrest
    · subst hgf
      simp [List.filterMap_cons, hv, List.lookup]
    · have hgname : g.name ≠ f.name := by
        intro he
        have h1 : g.name ∉ rest.map FieldInfo.name := (List.nodup_cons.mp hnodup).1
        exact h1 (he ▸ List.mem_map_of_mem FieldInfo.name hfrest)
      have hnd : (rest.map FieldInfo.name).Nodup := (List.nodup_cons.mp hnodup).2
      cases hg : json.lookup g.name with
      | none => simpa [List.filterMap_cons, hg] using ih hfrest hnd
      | some w =>
        simpa [List.filterMap_cons, hg, List.lookup,
          beq_false_of_ne (Ne.symm hgname)] using ih hfrest hnd

/-- pydantic construction fails, naming the field, when a declared
field is missing from the (repaired) JSON. -/
theorem constructModel_missing (fields : List FieldInfo)
    (json : List (String × JsonValue)) (f : FieldInfo)
    (hmem : f ∈ fields) (hnone : json.lookup f.name = none) :
    ∃ faults, constructModel fields json = .error faults ∧ f.name ∈ faults := by
  refine ⟨fields.filterMap
    (fun g =>
      match json.lookup g.name with
      | none => some g.name
      | some v => if validValue g v then none else some g.name), ?_, ?_⟩
  · have hfmem : f.name ∈ fields.filterMap
        (fun g =>
          match json.lookup g.name with
          | none => some g.name
          | some v => if validValue g v then none else some g.name) := by
      exact List.mem_filterMap.mpr ⟨f, hmem, by simp [hnone]⟩
    have hne : fields.filterMap
        (fun g =>
          match json.lookup g.name with
          | none => some g.name
          | some v => if validValue g v then none else some g.name) ≠ [] :=
      List.ne_nil_of_mem hfmem
    simp [constructModel, List.isEmpty_iff, hne]
  · exact List.mem_filterMap.mpr ⟨f, hmem, by simp [hnone]⟩

/-- A missing field whose declared type does not admit `None` is left
absent by the repair loop (it is only logged). -/
theorem repairFields_keeps_required_absent (fields : List FieldInfo)
    (json : List (String × JsonValue)) (f : FieldInfo)
    (hmem : f ∈ fields) (hnodup : (fields.map FieldInfo.name).Nodup)
    (hreq : f.admitsNone = false) (hnone : json.lookup f.name = none) :
    (repairFields fields json).lookup f.name = none := by
  induction fields generalizing json with
  | nil => simpa [repairFields] using hnone
  | cons g rest ih =>
    rw [repairFields]
    rcases List.mem_cons.mp hmem with hgf | hfrest
    · subst hgf
      have hs : ¬ ((json.lookup f.name).isSome = true) := by simp [hnone]
      rw [if_neg hs, if_neg (by simp [hreq])]
      apply repairFields_lookup_absent rest json f.name hnone
      intro g hg he
      have h1 : f.name ∉ rest.map FieldInfo.name := (List.nodup_cons.mp hnodup).1
      exact h1 (he ▸ List.mem_map_of_mem FieldInfo.name hg)
    · have hgname : g.name ≠ f.name := by
        intro he
        have h1 : g.name ∉ rest.map FieldInfo.name := (List.nodup_cons.mp hnodup).1
        exact h1 (he ▸ List.mem_map_of_mem FieldInfo.name hfrest)
      have hnd : (rest.map FieldInfo.name).Nodup := (List.nodup_cons.mp hnodup).2
      by_cases hs : (json.lookup g.name).isSome
      · simpa [hs] using ih json hfrest hnd hnone
      · rw [if_neg (by simp [hs])]
        by_cases hgo : g.admitsNone
        · have hacc : (json ++ [(g.name, JsonValue.null)]).lookup f.name = none := by
            rw [lookup_append_right hnone]
            simp [List.lookup, beq_false_of_ne (Ne.symm hgname)]
          simpa [hgo] using ih _ hfrest hnd hacc
        · simpa [hgo] using ih json hfrest hnd hnone

/-- Two declared fields of one model with the same name are the same
field (field names of `model_fields` are unique). -/
theorem eq_of_name_eq_of_nodup {fields : List FieldInfo}
    (hnodup : (fields.map FieldInfo.name).Nodup) {f g : FieldInfo}
    (hf : f ∈ fields) (hg : g ∈ fields) (h : f.name = g.name) : f = g := by
  induction fields with
  | nil => exact absurd hf (List.not_mem_nil f)
  | cons a rest ih =>
    have h1 : a.name ∉ rest.map FieldInfo.name := (List.nodup_cons.mp hnodup).1
    have hnd : (rest.map FieldInfo.name).Nodup := (List.nodup_cons.mp hnodup).2
    rcases List.mem_cons.mp hf with hfa | hfr
    · rcases List.mem_cons.mp hg with hga | hgr
      · rw [hfa, hga]
      · exact absurd ((hfa ▸ h) ▸ List.mem_map_of_mem FieldInfo.name hgr) h1
    · rcases List.mem_cons.mp hg with hga | hgr
      · exact absurd ((hga ▸ h.symm) ▸ List.mem_map_of_mem FieldInfo.name hfr) h1
      · exact ih hnd hfr hgr

/-- With the input-type check passed, `run` hands its caller exactly
the outcome of the one loop-body iteration. -/
theorem run_result_eq (cfg : AgentConfig) (messages : List Message)
    (input : InputEnvelope) (screenshot : Option String)
    (vt tt : Except PyError RawResponse)
    (hin : cfg.checkInput input = true) :
    (run cfg messages input screenshot vt tt).result = loopBody cfg.outputFields tt := by
  simp [run, hin]

/-- With the input-type check passed, `run` leaves the log exactly as
the pre-call construction built it: nothing is appended after the
transport call on any path. -/
theorem run_messages_eq (cfg : AgentConfig) (messages : List Message)
    (input : InputEnvelope) (screenshot : Option String)
    (vt tt : Except PyError RawResponse)
    (hin : cfg.checkInput input = true) :
    (run cfg messages input screenshot vt tt).messages =
      preCallMessages cfg messages input screenshot vt := by
  simp [run, hin]

theorem roleCount_append (r : Role) (a b : List Message) :
    roleCount r (a ++ b) = roleCount r a + roleCount r b := by
  simp [roleCount, List.filter_append]

/-- Mutating the head message's content preserves every role count. -/
theorem roleCount_augmentHead (r : Role) (msgs : List Message) (instr : String) :
    roleCount r (augmentHead msgs instr) = roleCount r msgs := by
  cases msgs with
  | nil => rfl
  | cons m rest =>
    simp only [augmentHead, roleCount, List.filter_cons]
    split <;> simp

theorem roleCount_userMsg_assistant (c : String) :
    roleCount Role.assistant [userMsg c] = 0 := rfl

theorem roleCount_userMsg_user (c : String) :
    roleCount Role.user [userMsg c] = 1 := rfl

theorem roleCount_pair_assistant (c d : String) :
    roleCount Role.assistant [userMsg c, userMsg d] = 0 := rfl

theorem roleCount_pair_user (c d : String) :
    roleCount Role.user [userMsg c, userMsg d] = 2 := rfl

/-- The pre-call construction appends no assistant message. -/
theorem preCall_assistantCount (cfg : AgentConfig) (messages : List Message)
    (input : InputEnvelope) (screenshot : Option String)
    (vt : Except PyError RawResponse) :
    roleCount Role.assistant (preCallMessages cfg messages input screenshot vt) =
      roleCount Role.assistant
        (if cfg.keepMessageHistory then messages else initMessages cfg) := by
  simp only [preCallMessages]
  cases screenshot with
  | none =>
    by_cases hps : hasPageState input <;>
      simp [hps, roleCount_augmentHead, roleCount_append, roleCount_userMsg_assistant,
        roleCount_pair_assistant]
  | some s =>
    by_cases hv : pyTruthy (analyzeScreenshotWithVision input vt) <;>
      by_cases hps : hasPageState input <;>
        simp [hv, hps, roleCount_augmentHead, roleCount_append,
          roleCount_userMsg_assistant, roleCount_pair_assistant]

/-- The pre-call construction appends exactly one user message, plus
the separate page-state message when the envelope declares both
page-state fields. -/
theorem preCall_userCount (cfg : AgentConfig) (messages : List Message)
    (input : InputEnvelope) (screenshot : Option String)
    (vt : Except PyError RawResponse) :
    roleCount Role.user (preCallMessages cfg messages input screenshot vt) =
      roleCount Role.user
          (if cfg.keepMessageHistory then messages else initMessages cfg) +
        (if hasPageState input then 2 else 1) := by
  simp only [preCallMessages]
  cases screenshot with
  | none =>
    by_cases hps : hasPageState input <;>
      simp [hps, roleCount_augmentHead, roleCount_append, roleCount_userMsg_user,
        roleCount_pair_user]
  | some s =>
    by_cases hv : pyTruthy (analyzeScreenshotWithVision input vt) <;>
      by_cases hps : hasPageState input <;>
        simp [hv, hps, roleCount_augmentHead, roleCount_append,
          roleCount_userMsg_user, roleCount_pair_user]

/-- Filtering out the page-state keys removes every entry under
them. -/
theorem filter_excluded_lookup_none (l : List (String × JsonValue)) (k : String)
    (hk : pageStateKeys.contains k = true) :
    (l.filter (fun kv => !(pageStateKeys.contains kv.1))).lookup k = none := by
  induction l with
  | nil => rfl
  | cons kv rest ih =>
    obtain ⟨k2, v2⟩ := kv
    by_cases h : pageStateKeys.contains k2 = true
    · have hp : (!(pageStateKeys.contains k2)) = false := by rw [h]; rfl
      rw [List.filter_cons]
      rw [if_neg (by rw [hp]; exact Bool.false_ne_true)]
      exact ih
    · have hk2 : k ≠ k2 := fun he => h (he ▸ hk)
      have hp : (!(pageStateKeys.contains k2)) = true := by
        cases hc : pageStateKeys.contains k2
        · rfl
        · exact absurd hc h
      rw [List.filter_cons, if_pos hp, List.lookup_cons, beq_false_of_ne hk2]
      exact ih

/-- The primary serialized message carries no entry for a page-state
key. -/
theorem primaryFields_lookup_none (input : InputEnvelope) (k : String)
    (hk : pageStateKeys.contains k = true) :
    (primaryFields input).lookup k = none :=
  filter_excluded_lookup_none input.fields k hk

/-! Claim theorems. -/

/-- C1: For every raw model response that parses as JSON but omits a
field of the declared output schema whose type does not admit an
absent value (a required field), the enforcement loop raises the
schema-violation error (surfaced as a `ValueError` from the pydantic
`ValidationError`), naming the offending field and carrying the raw
text, and never returns a partially-populated output envelope. -/
theorem required_field_missing_raises_schema_violation
    (cfg : AgentConfig) (messages : List Message) (input : InputEnvelope)
    (screenshot : Option String) (vt : Except PyError RawResponse)
    (fs : List (String × JsonValue)) (f : FieldInfo)
    (hin : cfg.checkInput input = true)
    (hnodup : (cfg.outputFields.map FieldInfo.name).Nodup)
    (hmem : f ∈ cfg.outputFields)
    (hreq : f.admitsNone = false)
    (hmiss : fs.lookup f.name = none) :
    ∃ faults,
      (run cfg messages input screenshot vt (.ok (.object fs))).result =
        .error (.schemaViolation faults ((RawResponse.object fs).text)) ∧
      f.name ∈ faults ∧
      ∀ env, (run cfg messages input screenshot vt (.ok (.object fs))).result ≠
        .ok env := by
  have habs :=
    repairFields_keeps_required_absent cfg.outputFields fs f hmem hnodup hreq hmiss
  obtain ⟨faults, herr, hf⟩ :=
    constructModel_missing cfg.outputFields (repairFields cfg.outputFields fs) f hmem habs
  have hres : (run cfg messages input screenshot vt (.ok (.object fs))).result =
      .error (.schemaViolation faults ((RawResponse.object fs).text)) := by
    rw [run_result_eq _ _ _ _ _ _ hin]
    simp [loopBody, herr]
  refine ⟨faults, hres, hf, ?_⟩
  intro env henv
  rw [hres] at henv
  exact Except.noConfusion henv

/-- C1 witness: end-to-end scenario B — the model returns
`{"thought": "done"}` with the required field `plan` missing, and the
call fails with a schema violation naming `plan`. -/
theorem required_field_missing_raises_schema_violation_witness :
    cfgPlanner.checkInput sampleInput = true ∧
    (cfgPlanner.outputFields.map FieldInfo.name).Nodup ∧
    planField ∈ cfgPlanner.outputFields ∧
    planField.admitsNone = false ∧
    List.lookup planField.name [("thought", JsonValue.str "done")] = none ∧
    ∃ faults,
      (run cfgPlanner [] sampleInput none errTransport
          (.ok (.object [("thought", JsonValue.str "done")]))).result =
        .error (.schemaViolation faults
          ((RawResponse.object [("thought", JsonValue.str "done")]).text)) ∧
      planField.name ∈ faults ∧
      ∀ env, (run cfgPlanner [] sampleInput none errTransport
          (.ok (.object [("thought", JsonValue.str "done")]))).result ≠ .ok env :=
  ⟨rfl, by decide, List.mem_cons_self planField [finalResponseField], rfl, rfl,
    required_field_missing_raises_schema_violation cfgPlanner [] sampleInput none
      errTransport [("thought", JsonValue.str "done")] planField rfl (by decide)
      (List.mem_cons_self planField [finalResponseField]) rfl rfl⟩

/-- C2: For every raw model response that parses as JSON and omits a
field whose declared type admits an absent value (an optional field),
the repair step injects `None` for that field and the loop returns an
output envelope whose field equals `None`, without raising (all other
declared fields being present and valid). -/
theorem optional_field_missing_defaults_to_none
    (cfg : AgentConfig) (messages : List Message) (input : InputEnvelope)
    (screenshot : Option String) (vt : Except PyError RawResponse)
    (fs : List (String × JsonValue)) (f : FieldInfo)
    (hin : cfg.checkInput input = true)
    (hnodup : (cfg.outputFields.map FieldInfo.name).Nodup)
    (hmem : f ∈ cfg.outputFields)
    (hopt : f.admitsNone = true)
    (hmiss : fs.lookup f.name = none)
    (hothers : ∀ g ∈ cfg.outputFields, g.name ≠ f.name →
      ∃ v, fs.lookup g.name = some v ∧ validValue g v = true) :
    ∃ env,
      (run cfg messages input screenshot vt (.ok (.object fs))).result = .ok env ∧
      env.lookup f.name = some JsonValue.null := by
  have hrep :=
    repairFields_injects_null cfg.outputFields fs f hmem hnodup hopt hmiss
  have hall : ∀ g ∈ cfg.outputFields, ∃ v,
      (repairFields cfg.outputFields fs).lookup g.name = some v ∧
        validValue g v = true := by
    intro g hg
    by_cases hgf : g.name = f.name
    · have hgeq : g = f := eq_of_name_eq_of_nodup hnodup hg hmem hgf
      subst hgeq
      exact ⟨JsonValue.null, hrep, by simp [validValue, hopt]⟩
    · obtain ⟨v, hv, hvalid⟩ := hothers g hg hgf
      exact ⟨v, repairFields_lookup_present _ _ _ _ hv, hvalid⟩
  have hok := constructModel_ok cfg.outputFields _ hall
  refine ⟨cfg.outputFields.filterMap
    (fun g => ((repairFields cfg.outputFields fs).lookup g.name).map
      (fun w => (g.name, w))), ?_, ?_⟩
  · rw [run_result_eq _ _ _ _ _ _ hin]
    simp [loopBody, hok]
  · exact constructModel_env_lookup cfg.outputFields _ f JsonValue.null hmem hnodup hrep

/-- C2 witness: the model omits the optional `final_response` field;
the returned envelope holds `None` for it. -/
theorem optional_field_missing_defaults_to_none_witness :
    cfgPlanner.checkInput sampleInput = true ∧
    (cfgPlanner.outputFields.map FieldInfo.name).Nodup ∧
    finalResponseField ∈ cfgPlanner.outputFields ∧
    finalResponseField.admitsNone = true ∧
    List.lookup finalResponseField.name [("plan", JsonValue.str "step 1")] = none ∧
    ∃ env,
      (run cfgPlanner [] sampleInput none errTransport
          (.ok (.object [("plan", JsonValue.str "step 1")]))).result = .ok env ∧
      env.lookup finalResponseField.name = some JsonValue.null :=
  ⟨rfl, by decide, by simp [cfgPlanner], rfl, rfl,
    optional_field_missing_defaults_to_none cfgPlanner [] sampleInput none
      errTransport [("plan", JsonValue.str "step 1")] finalResponseField rfl
      (by decide) (by simp [cfgPlanner]) rfl rfl
      (by
        intro g hg hne
        rcases List.mem_cons.mp hg with h1 | h1
        · subst h1
          exact ⟨JsonValue.str "step 1", rfl, rfl⟩
        · rcases List.mem_cons.mp h1 with h2 | h2
          · exact absurd (h2 ▸ rfl) hne
          · exact absurd h2 (List.not_mem_nil g))⟩

/-- C3: For every raw model response that is not parseable as JSON,
the loop raises the malformed-response error (the `ValueError`
re-raised from the caught `json.JSONDecodeError`) carrying the raw
text, and the conversation log is exactly as the pre-call construction
left it — in particular, the failed attempt appends no assistant
message. -/
theorem malformed_response_raises_and_preserves_log
    (cfg : AgentConfig) (messages : List Message) (input : InputEnvelope)
    (screenshot : Option String) (vt : Except PyError RawResponse) (text : String)
    (hin : cfg.checkInput input = true) :
    (run cfg messages input screenshot vt (.ok (.invalid text))).result =
      .error (.malformedResponse text) ∧
    (run cfg messages input screenshot vt (.ok (.invalid text))).messages =
      preCallMessages cfg messages input screenshot vt ∧
    roleCount Role.assistant
        (run cfg messages input screenshot vt (.ok (.invalid text))).messages =
      roleCount Role.assistant
        (if cfg.keepMessageHistory then messages else initMessages cfg) := by
  refine ⟨?_, run_messages_eq _ _ _ _ _ _ hin, ?_⟩
  · rw [run_result_eq _ _ _ _ _ _ hin]
    rfl
  · rw [run_messages_eq _ _ _ _ _ _ hin]
    exact preCall_assistantCount cfg messages input screenshot vt

/-- C3 witness: a concrete non-JSON response raises the malformed
error and leaves the log exactly as built before the call. -/
theorem malformed_response_raises_and_preserves_log_witness :
    cfgPlanner.checkInput sampleInput = true ∧
    ((run cfgPlanner (initMessages cfgPlanner) sampleInput none errTransport
        (.ok (.invalid "I will now plan the task:"))).result =
      .error (.malformedResponse "I will now plan the task:") ∧
    (run cfgPlanner (initMessages cfgPlanner) sampleInput none errTransport
        (.ok (.invalid "I will now plan the task:"))).messages =
      preCallMessages cfgPlanner (initMessages cfgPlanner) sampleInput none
        errTransport ∧
    roleCount Role.assistant
        (run cfgPlanner (initMessages cfgPlanner) sampleInput none errTransport
          (.ok (.invalid "I will now plan the task:"))).messages =
      roleCount Role.assistant
        (if cfgPlanner.keepMessageHistory then initMessages cfgPlanner
         else initMessages cfgPlanner)) :=
  ⟨rfl, malformed_response_raises_and_preserves_log cfgPlanner
    (initMessages cfgPlanner) sampleInput none errTransport
    "I will now plan the task:" rfl⟩

/-- C8: a vision-analysis failure degrades to the fixed fallback value
instead of propagating; the run still appends its user message(s), and
its outcome is exactly the loop body's verdict on the text response —
identical under every vision outcome, so the call completes or fails
only for reasons unrelated to vision. -/
theorem vision_failure_degrades_gracefully
    (cfg : AgentConfig) (messages : List Message) (input : InputEnvelope)
    (s : String) (e : PyError) (tt : Except PyError RawResponse)
    (hin : cfg.checkInput input = true) :
    analyzeScreenshotWithVision input (.error e) = .str visionFallback ∧
    roleCount Role.user (run cfg messages input (some s) (.error e) tt).messages =
      roleCount Role.user
          (if cfg.keepMessageHistory then messages else initMessages cfg) +
        (if hasPageState input then 2 else 1) ∧
    (run cfg messages input (some s) (.error e) tt).result =
      loopBody cfg.outputFields tt ∧
    ∀ vt2 : Except PyError RawResponse,
      (run cfg messages input (some s) (.error e) tt).result =
        (run cfg messages input (some s) vt2 tt).result := by
  refine ⟨?_, ?_, run_result_eq _ _ _ _ _ _ hin, ?_⟩
  · unfold analyzeScreenshotWithVision
    cases h : input.fields.lookup "objective" <;> simp [h]
  · rw [run_messages_eq _ _ _ _ _ _ hin]
    exact preCall_userCount cfg messages input (some s) (.error e)
  · intro vt2
    rw [run_result_eq _ _ _ _ _ _ hin, run_result_eq _ _ _ _ _ _ hin]

/-- C8 witness: a concrete vision transport failure falls back and the
run still returns the parsed envelope of the text response. -/
theorem vision_failure_degrades_gracefully_witness :
    cfgPlanner.checkInput sampleInput = true ∧
    (analyzeScreenshotWithVision sampleInput
        (.error (.transportFailure "timeout")) = .str visionFallback ∧
    roleCount Role.user (run cfgPlanner (initMessages cfgPlanner) sampleInput
        (some "screenshot-b64") (.error (.transportFailure "timeout"))
        okTransport).messages =
      roleCount Role.user
          (if cfgPlanner.keepMessageHistory then initMessages cfgPlanner
           else initMessages cfgPlanner) +
        (if hasPageState sampleInput then 2 else 1) ∧
    (run cfgPlanner (initMessages cfgPlanner) sampleInput
        (some "screenshot-b64") (.error (.transportFailure "timeout"))
        okTransport).result = loopBody cfgPlanner.outputFields okTransport ∧
    ∀ vt2 : Except PyError RawResponse,
      (run cfgPlanner (initMessages cfgPlanner) sampleInput
          (some "screenshot-b64") (.error (.transportFailure "timeout"))
          okTransport).result =
        (run cfgPlanner (initMessages cfgPlanner) sampleInput
          (some "screenshot-b64") vt2 okTransport).result) :=
  ⟨rfl, vision_failure_degrades_gracefully cfgPlanner (initMessages cfgPlanner)
    sampleInput "screenshot-b64" (.transportFailure "timeout") okTransport rfl⟩

/-- C7: when the envelope declares both page-state fields, the primary
serialized user message excludes them (no entry under either key), and
a second user message carrying them is appended immediately after the
primary one. -/
theorem page_state_kept_separate
    (cfg : AgentConfig) (messages : List Message) (input : InputEnvelope)
    (vt tt : Except PyError RawResponse)
    (hin : cfg.checkInput input = true)
    (hps : hasPageState input = true) :
    (primaryFields input).lookup "current_page_dom" = none ∧
    (primaryFields input).lookup "current_page_url" = none ∧
    (run cfg messages input none vt tt).messages =
      augmentHead
        ((if cfg.keepMessageHistory then messages else initMessages cfg) ++
          [userMsg (primaryContent input), userMsg (pageStateContent input)])
        (jsonInstruction cfg.outputFields) := by
  refine ⟨primaryFields_lookup_none input "current_page_dom" rfl,
    primaryFields_lookup_none input "current_page_url" rfl, ?_⟩
  rw [run_messages_eq _ _ _ _ _ _ hin]
  simp only [preCallMessages]
  simp [hps, List.append_assoc]

/-- C7 witness: a concrete envelope carrying DOM and URL fields. -/
theorem page_state_kept_separate_witness :
    cfgPlanner.checkInput pageInput = true ∧
    hasPageState pageInput = true ∧
    ((primaryFields pageInput).lookup "current_page_dom" = none ∧
    (primaryFields pageInput).lookup "current_page_url" = none ∧
    (run cfgPlanner (initMessages cfgPlanner) pageInput none errTransport
        okTransport).messages =
      augmentHead
        ((if cfgPlanner.keepMessageHistory then initMessages cfgPlanner
          else initMessages cfgPlanner) ++
          [userMsg (primaryContent pageInput), userMsg (pageStateContent pageInput)])
        (jsonInstruction cfgPlanner.outputFields)) :=
  ⟨rfl, rfl, page_state_kept_separate cfgPlanner (initMessages cfgPlanner) pageInput
    errTransport okTransport rfl rfl⟩

/-- C9: every invocation of `run` terminates after the single
iteration of its loop — the outcome handed to the caller is the loop
body's outcome — making at most one text-model transport call (exactly
one when the input-type check passes) and never dispatching a tool. -/
theorem run_single_iteration_no_tools
    (cfg : AgentConfig) (messages : List Message) (input : InputEnvelope)
    (screenshot : Option String) (vt tt : Except PyError RawResponse) :
    (run cfg messages input screenshot vt tt).toolDispatches = 0 ∧
    (run cfg messages input screenshot vt tt).textModelCalls ≤ 1 ∧
    (cfg.checkInput input = true →
      (run cfg messages input screenshot vt tt).textModelCalls = 1 ∧
      (run cfg messages input screenshot vt tt).result =
        loopBody cfg.outputFields tt) := by
  by_cases hin : cfg.checkInput input = true
  · refine ⟨?_, ?_, fun _ => ⟨?_, run_result_eq _ _ _ _ _ _ hin⟩⟩ <;> simp [run, hin]
  · have hin2 : cfg.checkInput input = false := by
      cases h : cfg.checkInput input
      · rfl
      · exact absurd h hin
    refine ⟨?_, ?_, fun h => absurd h hin⟩ <;> simp [run, hin2]

/-- C9 witness: a concrete run makes exactly one text-model call, no
tool dispatch, and returns the body's outcome. -/
theorem run_single_iteration_no_tools_witness :
    cfgPlanner.checkInput sampleInput = true ∧
    (run cfgPlanner (initMessages cfgPlanner) sampleInput none errTransport
      okTransport).toolDispatches = 0 ∧
    (run cfgPlanner (initMessages cfgPlanner) sampleInput none errTransport
      okTransport).textModelCalls = 1 ∧
    (run cfgPlanner (initMessages cfgPlanner) sampleInput none errTransport
      okTransport).result = loopBody cfgPlanner.outputFields okTransport :=
  ⟨rfl,
    (run_single_iteration_no_tools cfgPlanner (initMessages cfgPlanner) sampleInput
      none errTransport okTransport).1,
    ((run_single_iteration_no_tools cfgPlanner (initMessages cfgPlanner) sampleInput
      none errTransport okTransport).2.2 rfl).1,
    ((run_single_iteration_no_tools cfgPlanner (initMessages cfgPlanner) sampleInput
      none errTransport okTransport).2.2 rfl).2⟩

/-- C10: every invocation of `VisionAgent.run` raises `TypeError` at
the binding of its `super().run(..., model=...)` call — `BaseAgent.run`
accepts only `input_data`, `screenshot` and `session_id` — before any
model call is made and before the log is touched. -/
theorem vision_agent_run_raises_type_error
    (cfg : AgentConfig) (messages : List Message) (input : InputEnvelope)
    (screenshot : Option String) (vt tt : Except PyError RawResponse) :
    (visionAgentRun cfg messages input screenshot vt tt).result =
      .error (.uncaught (.typeErrorUnexpectedKwarg "model")) ∧
    (visionAgentRun cfg messages input screenshot vt tt).textModelCalls = 0 ∧
    (visionAgentRun cfg messages input screenshot vt tt).messages = messages := by
  refine ⟨?_, ?_, ?_⟩ <;> rfl

/-- C5 (code bug): dispatching a registered tool whose callable raises
does not produce the intended failure tool message — the except block
evaluates `function_response`, which is unbound on that path, so an
`UnboundLocalError` escapes the dispatcher and no tool message is
appended. -/
theorem tool_error_escapes_dispatcher :
    appendToolResponse [("get_current_url", failingTool)] (initMessages cfgPlanner)
      { id := "call_1", name := "get_current_url", argumentsRaw := .object [] } =
      .error (.unboundLocalError "function_response") ∧
    ∀ msgs, appendToolResponse [("get_current_url", failingTool)]
        (initMessages cfgPlanner)
        { id := "call_1", name := "get_current_url", argumentsRaw := .object [] } ≠
      .ok msgs := by
  refine ⟨rfl, ?_⟩
  intro msgs h
  rw [show appendToolResponse [("get_current_url", failingTool)]
      (initMessages cfgPlanner)
      { id := "call_1", name := "get_current_url", argumentsRaw := .object [] } =
      .error (.unboundLocalError "function_response") from rfl] at h
  exact Except.noConfusion h

/-- C6 counterexample: a requested call named `nonexistent_tool` makes
the dispatcher raise `KeyError` at the registry lookup (which sits
before its try block); contrary to the claim, no failure tool message
is appended and the dispatch does raise. -/
theorem unknown_tool_dispatch_raises_counterexample :
    appendToolResponse [("get_current_url", okTool)] (initMessages cfgPlanner)
      { id := "call_2", name := "nonexistent_tool", argumentsRaw := .object [] } =
      .error (.keyError "nonexistent_tool") ∧
    ∀ msgs, appendToolResponse [("get_current_url", okTool)] (initMessages cfgPlanner)
        { id := "call_2", name := "nonexistent_tool", argumentsRaw := .object [] } ≠
      .ok msgs := by
  refine ⟨rfl, ?_⟩
  intro msgs h
  rw [show appendToolResponse [("get_current_url", okTool)] (initMessages cfgPlanner)
      { id := "call_2", name := "nonexistent_tool", argumentsRaw := .object [] } =
      .error (.keyError "nonexistent_tool") from rfl] at h
  exact Except.noConfusion h

/-- C6 (amended): for every requested tool call whose name is not in
the registry, the dispatcher raises `KeyError` from the lookup and
appends no tool message; the orchestration loop never invokes the
dispatcher, so no "next model call" follows a dispatch. -/
theorem unknown_tool_raises_key_error
    (executableFunctions : List (String × ToolFn)) (messages : List Message)
    (tc : ToolCall)
    (h : executableFunctions.lookup tc.name = none) :
    appendToolResponse executableFunctions messages tc =
      .error (.keyError tc.name) := by
  simp [appendToolResponse, h]

/-- C6 amended witness: concrete unregistered name. -/
theorem unknown_tool_raises_key_error_witness :
    ([("get_current_url", okTool)] : List (String × ToolFn)).lookup
        "nonexistent_tool" = none ∧
    appendToolResponse [("get_current_url", okTool)] []
      { id := "call_9", name := "nonexistent_tool", argumentsRaw := .object [] } =
      .error (.keyError "nonexistent_tool") :=
  ⟨rfl, unknown_tool_raises_key_error [("get_current_url", okTool)] []
    { id := "call_9", name := "nonexistent_tool", argumentsRaw := .object [] } rfl⟩

set_option maxRecDepth 100000 in
/-- C4 (code bug): with retained history, `run` appends the schema
instruction to the stored system message on every invocation
(`self.messages[0]["content"] += json_instruction`): after two
successive runs the instruction occurs twice in the stored system
message, violating the claimed at-most-once property. -/
theorem schema_instruction_duplicated_on_retained_history :
    occurrencesIn (jsonInstruction cfgTiny.outputFields)
        (headContentOf (run cfgTiny
          (run cfgTiny (initMessages cfgTiny) tinyInput none errTransport
            emptyOkTransport).messages
          tinyInput none errTransport emptyOkTransport).messages) = 2 ∧
    ¬ (occurrencesIn (jsonInstruction cfgTiny.outputFields)
        (headContentOf (run cfgTiny
          (run cfgTiny (initMessages cfgTiny) tinyInput none errTransport
            emptyOkTransport).messages
          tinyInput none errTransport emptyOkTransport).messages) ≤ 1) := by
  constructor
  · decide
  · decide

end AgentQ
